import Mathlib

/-!
Shallow embedding of `paasta_tools/paasta_maintenance.py` (the maintenance
schedule merge engine, the machine identity resolver and the time codec),
together with proofs about the merge algorithm
`build_maintenance_schedule_payload`.

The Python function mutates the schedule document in place while iterating
over it with Python's index-based `for` iterator.  The embedding reproduces
those iterator semantics exactly: a `for x in lst` loop fetches `lst[c]` for
`c = 0, 1, 2, ...` against the *current* state of the list and stops at the
first index that is out of range, so removing an element at or before the
current index makes the loop skip the element that followed it.
-/

namespace Paasta

/-- A machine identity `{hostname, ip}` as built by `get_machine_ids`.
Python dict equality is value equality on both fields. -/
structure MachineId where
  hostname : String
  ip : String
deriving DecidableEq, Repr

/-- The `unavailability` sub-document: `start` and `duration` in integer
nanoseconds (`int(start)` / `int(duration)` in the source). -/
structure Unavailability where
  start : Int
  duration : Int
deriving DecidableEq, Repr

/-- A maintenance window `{machine_ids, unavailability}`.  `machine_ids` is a
Python list (ordered, duplicates possible in principle). -/
structure Window where
  machine_ids : List MachineId
  unavailability : Unavailability
deriving DecidableEq, Repr

/-- The inner loop of `build_maintenance_schedule_payload`:

    for existing_machine_id in existing_window['machine_ids']:
        if existing_machine_id in machine_ids:
            existing_window['machine_ids'].remove(existing_machine_id)

`c` is the iterator's fetch index.  `list.remove` deletes the first
occurrence equal to the fetched element (`List.erase`); the iterator then
continues at index `c + 1` of the shortened list, skipping the element that
followed the removed occurrence. -/
def stripLoop (req : List MachineId) (l : List MachineId) (c : Nat) : List MachineId :=
  if h : c < l.length then
    if l.get ⟨c, h⟩ ∈ req then
      stripLoop req (l.erase (l.get ⟨c, h⟩)) (c + 1)
    else
      stripLoop req l (c + 1)
  else l
termination_by l.length - c
decreasing_by
  · have h1 : (l.erase (l.get ⟨c, h⟩)).length ≤ l.length :=
      (List.erase_sublist _ l).length_le
    omega
  · omega

/-- The outer loop of `build_maintenance_schedule_payload`:

    for existing_window in schedule['windows']:
        for existing_machine_id in existing_window['machine_ids']: ...
            if not existing_window['machine_ids']:
                schedule['windows'].remove(existing_window)

Each fetched window dict is stripped in place (`List.set c`).  The moment its
`machine_ids` list becomes empty — which happens exactly when the inner loop
finishes with `[]` after starting from a non-empty list — `list.remove`
deletes the first window of the schedule that is value-equal to the (now
empty) current window.  The outer iterator then continues at index `c + 1`
of the current list. -/
def mergeLoop (req : List MachineId) (ws : List Window) (c : Nat) : List Window :=
  if h : c < ws.length then
    let w := ws.get ⟨c, h⟩
    let stripped := stripLoop req w.machine_ids 0
    let ws1 := ws.set c ⟨stripped, w.unavailability⟩
    let ws2 := if stripped = [] ∧ w.machine_ids ≠ [] then
        ws1.erase ⟨[], w.unavailability⟩
      else ws1
    mergeLoop req ws2 (c + 1)
  else ws
termination_by ws.length - c
decreasing_by
  have h1 : ((ws.set c ⟨stripLoop req (ws.get ⟨c, h⟩).machine_ids 0,
      (ws.get ⟨c, h⟩).unavailability⟩).erase
      ⟨[], (ws.get ⟨c, h⟩).unavailability⟩).length ≤
      (ws.set c ⟨stripLoop req (ws.get ⟨c, h⟩).machine_ids 0,
      (ws.get ⟨c, h⟩).unavailability⟩).length :=
    (List.erase_sublist _ _).length_le
  have h2 := List.length_set ws c
    (⟨stripLoop req (ws.get ⟨c, h⟩).machine_ids 0,
      (ws.get ⟨c, h⟩).unavailability⟩ : Window)
  split <;> omega

/-- `build_maintenance_schedule_payload(hostnames, start, duration, drain)`,
with its two external effects turned into arguments: the schedule fetched
from the control plane is `schedule` (`none` models a falsy — missing or
empty — document, which takes the `elif`/`else` branch of `if schedule:`),
and `get_machine_ids(hostnames)` has already been applied, giving
`machine_ids`.  The returned value is the `windows` list of the payload
(the payload is exactly `{'windows': windows}`). -/
def build_maintenance_schedule_payload (schedule : Option (List Window))
    (machine_ids : List MachineId) (start duration : Int)
    (drain : Bool) : List Window :=
  let window : Window := ⟨machine_ids, ⟨start, duration⟩⟩
  match schedule with
  | some ws =>
    let stripped := mergeLoop machine_ids ws 0
    if drain then stripped ++ [window] else stripped
  | none => if drain then [window] else []

/-- All machine identities mentioned anywhere in a window list. -/
def scheduleMachines (ws : List Window) : List MachineId :=
  ws.foldr (fun w acc => w.machine_ids ++ acc) []

/-- Sample machine identities for concrete scenarios. -/
def mA : MachineId := ⟨"hostA", "10.0.0.1"⟩

def mB : MachineId := ⟨"hostB", "10.0.0.2"⟩

def mC : MachineId := ⟨"hostC", "10.0.0.3"⟩

/-- Python's `str.split` with the one-character separator `'|'`:
`"a|b".split('|') == ["a", "b"]`, `"a".split('|') == ["a"]`,
`"a||b".split('|') == ["a", "", "b"]`.  The result is never empty. -/
def splitOnPipe : List Char → List (List Char)
  | [] => [[]]
  | c :: rest =>
    if c = '|' then
      [] :: splitOnPipe rest
    else
      match splitOnPipe rest with
      | [] => [[c]]
      | l :: ls => (c :: l) :: ls

/-- The body of `get_machine_ids` for one host specifier.  `dns` stands for
the external `socket.gethostbyname` collaborator; it is consulted only when
the specifier contains no `'|'`.  In the pipe branch
`(host, ip) = hostname.split('|')` destructures the split into exactly two
parts, so a split with any other number of parts raises `ValueError`
(modeled as `none`). -/
def machineIdOfSpecifier (dns : String → String) (s : String) : Option MachineId :=
  if '|' ∈ s.toList then
    match splitOnPipe s.toList with
    | [host, ip] => some ⟨String.mk host, String.mk ip⟩
    | _ => none
  else
    some ⟨s, dns s⟩

/-- `get_machine_ids(hostnames)`: builds one machine id per specifier, in
input order; the first specifier that raises propagates the error
(`none`). -/
def get_machine_ids (dns : String → String) : List String → Option (List MachineId)
  | [] => some []
  | s :: rest =>
    match machineIdOfSpecifier dns s, get_machine_ids dns rest with
    | some m, some ms => some (m :: ms)
    | _, _ => none

/-- The Python exceptions relevant to `timedelta_type`.
`typeError` is what `None * 1000000000` raises.
`invalidDurationError` is Modelled from the spec: §7 of the specification
names an `InvalidDurationError` for unparseable duration text, but no such
error class exists anywhere in the source; it is included in the exception
alphabet only so the spec claim about it can be stated and compared with
what the code raises. -/
inductive PyExc where
  | typeError
  | invalidDurationError
deriving DecidableEq, Repr

/-- `seconds_to_nanoseconds(seconds)`: exact multiplication by `10^9`. -/
def seconds_to_nanoseconds (seconds : Int) : Int :=
  seconds * 1000000000

/-- `timedelta_type(value)`: `None` input returns `None` (the sentinel,
`Except.ok none`); otherwise the result of `pytimeparse.timeparse` — the
external parser, passed in as `timeparse`, returning `none` on unparseable
text as the library does — is multiplied by `10^9`.  When `timeparse`
returns `none`, the multiplication `None * 1000000000` raises `TypeError`. -/
def timedelta_type (timeparse : String → Option Int) (value : Option String) :
    Except PyExc (Option Int) :=
  match value with
  | none => Except.ok none
  | some v =>
    match timeparse v with
    | some s => Except.ok (some (seconds_to_nanoseconds s))
    | none => Except.error PyExc.typeError

/-- C1: the claim says that in every schedule produced by the merge no
machine identity appears in more than one window.  The code violates it:
with an existing window holding `[mA, mB]` and a drain request for
`[mA, mB]`, removing `mA` during iteration makes Python's iterator skip
`mB`, so `mB` survives in the old window and also lands in the appended
request window — two distinct windows of the produced schedule contain
`mB`. -/
theorem c1_merge_violates_mutual_exclusion :
    build_maintenance_schedule_payload (some [⟨[mA, mB], ⟨1, 2⟩⟩]) [mA, mB] 100 200 true
      = [⟨[mB], ⟨1, 2⟩⟩, ⟨[mA, mB], ⟨100, 200⟩⟩] ∧
    (⟨[mB], ⟨1, 2⟩⟩ : Window) ≠ ⟨[mA, mB], ⟨100, 200⟩⟩ ∧
    mB ∈ (⟨[mB], ⟨1, 2⟩⟩ : Window).machine_ids ∧
    mB ∈ (⟨[mA, mB], ⟨100, 200⟩⟩ : Window).machine_ids := by
  refine ⟨?_, by decide, by decide, by decide⟩
  simp [build_maintenance_schedule_payload, mergeLoop, stripLoop, mA, mB]

/-- C2: the claim says draining the same non-empty host set twice gives the
same schedule (as a set of windows) as draining it once.  The code violates
it for a two-host request: the second drain strips only `mA` from the window
the first drain created (the iterator skips `mB` after the removal), leaves
a residual `[mB]` window behind and appends a fresh `[mA, mB]` window, so
the double merge contains a window the single merge does not. -/
theorem c2_repeated_drain_not_idempotent :
    build_maintenance_schedule_payload (some []) [mA, mB] 100 200 true
      = [⟨[mA, mB], ⟨100, 200⟩⟩] ∧
    build_maintenance_schedule_payload
        (some (build_maintenance_schedule_payload (some []) [mA, mB] 100 200 true))
        [mA, mB] 100 200 true
      = [⟨[mB], ⟨100, 200⟩⟩, ⟨[mA, mB], ⟨100, 200⟩⟩] ∧
    (⟨[mB], ⟨100, 200⟩⟩ : Window) ∉ [(⟨[mA, mB], ⟨100, 200⟩⟩ : Window)] := by
  refine ⟨?_, ?_, by decide⟩
  · simp [build_maintenance_schedule_payload, mergeLoop]
  · simp [build_maintenance_schedule_payload, mergeLoop, stripLoop, mA, mB]

/-- C3: the claim says the machines present after an undrain merge are
exactly the machines of the existing schedule minus the requested set.  The
code violates it: undraining `[mA, mB]` from a schedule whose only window
holds `[mA, mB]` removes `mA` but skips `mB` (iterator skip after an
in-place removal), so `mB` — a requested machine — is still present in the
result, while the claimed result set is empty. -/
theorem c3_undrain_leaves_requested_machine :
    build_maintenance_schedule_payload (some [⟨[mA, mB], ⟨1, 2⟩⟩]) [mA, mB] 100 200 false
      = [⟨[mB], ⟨1, 2⟩⟩] ∧
    scheduleMachines (build_maintenance_schedule_payload
        (some [⟨[mA, mB], ⟨1, 2⟩⟩]) [mA, mB] 100 200 false) = [mB] ∧
    mB ∈ ([mA, mB] : List MachineId) := by
  have h : build_maintenance_schedule_payload
      (some [⟨[mA, mB], ⟨1, 2⟩⟩]) [mA, mB] 100 200 false = [⟨[mB], ⟨1, 2⟩⟩] := by
    simp [build_maintenance_schedule_payload, mergeLoop, stripLoop, mA, mB]
  refine ⟨h, ?_, by decide⟩
  rw [h]
  simp [scheduleMachines]

/-- C4 counterexample: the claim says every window of a merged schedule has
a non-empty machine set, for every existing schedule and every request.  A
drain request with an empty machine list appends a window whose machine set
is empty. -/
theorem c4_counterexample_empty_window :
    build_maintenance_schedule_payload (some []) [] 100 200 true
      = [⟨[], ⟨100, 200⟩⟩] ∧
    (⟨([] : List MachineId), ⟨100, 200⟩⟩ : Window).machine_ids = [] := by
  refine ⟨?_, rfl⟩
  simp [build_maintenance_schedule_payload, mergeLoop]

/-- C5 counterexample: the claim says a merge with an empty request machine
set returns the existing schedule unchanged in both modes.  In drain mode
the code still appends the request window (with its empty machine list), so
the result differs from the existing schedule. -/
theorem c5_counterexample_drain_empty_request :
    build_maintenance_schedule_payload (some [⟨[mC], ⟨1, 2⟩⟩]) [] 100 200 true
      = [⟨[mC], ⟨1, 2⟩⟩, ⟨[], ⟨100, 200⟩⟩] ∧
    ([⟨[mC], ⟨1, 2⟩⟩, ⟨[], ⟨100, 200⟩⟩] : List Window) ≠ [⟨[mC], ⟨1, 2⟩⟩] := by
  refine ⟨?_, by decide⟩
  simp [build_maintenance_schedule_payload, mergeLoop, stripLoop]

/-- C6: if the existing schedule document is falsy (absent) or has an empty
window list and the mode is undrain, the merge returns an empty window
sequence, for every requested host set; the function is total, so no error
is raised. -/
theorem c6_undrain_of_empty_schedule (machine_ids : List MachineId)
    (start duration : Int) :
    build_maintenance_schedule_payload none machine_ids start duration false = [] ∧
    build_maintenance_schedule_payload (some []) machine_ids start duration false
      = [] := by
  constructor
  · rfl
  · simp [build_maintenance_schedule_payload, mergeLoop]

theorem set_get_self (l : List Window) (c : Nat) (h : c < l.length) :
    l.set c (l.get ⟨c, h⟩) = l := by
  induction l generalizing c with
  | nil => simp at h
  | cons x xs ih =>
    cases c with
    | zero => simp
    | succ n => simp only [List.set, List.get]; rw [ih]

theorem stripLoop_nil_req (l : List MachineId) (c : Nat) :
    stripLoop [] l c = l := by
  induction l, c using stripLoop.induct [] with
  | _ => first
    | (rw [stripLoop]; simp_all)

theorem mergeLoop_nil_req (ws : List Window) (c : Nat) :
    mergeLoop [] ws c = ws := by
  have key : ∀ n ws c, ws.length ≤ c + n → mergeLoop [] ws c = ws := by
    intro n
    induction n with
    | zero =>
      intro ws c hle
      rw [mergeLoop, dif_neg (by omega)]
    | succ n ih =>
      intro ws c hle
      rw [mergeLoop]
      by_cases h : c < ws.length
      · rw [dif_pos h]
        simp only [stripLoop_nil_req, and_not_self, if_false, ite_false]
        have hset : ws.set c
            ⟨(ws.get ⟨c, h⟩).machine_ids, (ws.get ⟨c, h⟩).unavailability⟩ = ws :=
          set_get_self ws c h
        rw [hset]
        exact ih ws (c + 1) (by omega)
      · rw [dif_neg h]
  exact key ws.length ws c (by omega)

theorem forall_mem_set {P : Window → Prop} {ws : List Window} {c : Nat} {v : Window}
    (hws : ∀ w ∈ ws, P w) (hv : P v) : ∀ w ∈ ws.set c v, P w := by
  intro w hw
  rcases List.mem_or_eq_of_mem_set hw with h | rfl
  · exact hws w h
  · exact hv

theorem forall_mem_erase_set_empty {ws : List Window} {c : Nat} (h : c < ws.length)
    (ua : Unavailability)
    (hws : ∀ w ∈ ws, w.machine_ids ≠ []) :
    ∀ w ∈ (ws.set c ⟨[], ua⟩).erase ⟨[], ua⟩, w.machine_ids ≠ [] := by
  have hnot : (⟨[], ua⟩ : Window) ∉ ws.take c := by
    intro hmem
    exact hws _ (List.mem_of_mem_take hmem) rfl
  intro w hw
  rw [List.set_eq_take_cons_drop _ h, List.erase_append_right _ hnot,
    List.erase_cons_head] at hw
  rcases List.mem_append.mp hw with h1 | h2
  · exact hws w (List.mem_of_mem_take h1)
  · exact hws w (List.mem_of_mem_drop h2)

theorem mergeLoop_no_empty (req : List MachineId) (ws : List Window) (c : Nat)
    (hws : ∀ w ∈ ws, w.machine_ids ≠ []) :
    ∀ w ∈ mergeLoop req ws c, w.machine_ids ≠ [] := by
  have key : ∀ n ws c, ws.length ≤ c + n → (∀ w ∈ ws, w.machine_ids ≠ []) →
      ∀ w ∈ mergeLoop req ws c, w.machine_ids ≠ [] := by
    intro n
    induction n with
    | zero =>
      intro ws c hle hws
      rw [mergeLoop, dif_neg (by omega)]
      exact hws
    | succ n ih =>
      intro ws c hle hws
      rw [mergeLoop]
      by_cases h : c < ws.length
      · rw [dif_pos h]
        have hget : (ws.get ⟨c, h⟩).machine_ids ≠ [] := hws _ (ws.get_mem c h)
        by_cases hc : stripLoop req (ws.get ⟨c, h⟩).machine_ids 0 = []
        · simp only [hc, hget, ne_eq, not_false_eq_true, and_self, if_true, ite_true,
            not_true_eq_false]
          apply ih
          · have hlen : ((ws.set c (⟨[], (ws.get ⟨c, h⟩).unavailability⟩ : Window)).erase
                ⟨[], (ws.get ⟨c, h⟩).unavailability⟩).length ≤
                (ws.set c (⟨[], (ws.get ⟨c, h⟩).unavailability⟩ : Window)).length :=
              (List.erase_sublist _ _).length_le
            rw [List.length_set] at hlen
            omega
          · exact forall_mem_erase_set_empty h _ hws
        · simp only [hc, false_and, if_false, ite_false]
          apply ih
          · rw [List.length_set]; omega
          · exact forall_mem_set hws hc
      · rw [dif_neg h]
        exact hws
  exact key ws.length ws c (by omega) hws

/-- C4 amended: for every existing schedule all of whose windows have a
non-empty machine set and every request with a non-empty machine set, every
window of the merged schedule has a non-empty machine set.  (The original
claim, quantified over all existing schedules and requests, fails when the
request machine list is empty in drain mode, or when the existing schedule
already holds an empty window — see the counterexample.) -/
theorem c4_no_empty_windows_amended (schedule : Option (List Window))
    (machine_ids : List MachineId) (start duration : Int) (drain : Bool)
    (hs : ∀ w ∈ schedule.getD [], w.machine_ids ≠ [])
    (hreq : machine_ids ≠ []) :
    ∀ w ∈ build_maintenance_schedule_payload schedule machine_ids start duration drain,
      w.machine_ids ≠ [] := by
  cases schedule with
  | none =>
    cases drain with
    | false => intro w hw; simp [build_maintenance_schedule_payload] at hw
    | true =>
      intro w hw
      simp only [build_maintenance_schedule_payload, if_true, ite_true,
        List.mem_singleton] at hw
      subst hw
      exact hreq
  | some ws =>
    have hinv : ∀ w ∈ mergeLoop machine_ids ws 0, w.machine_ids ≠ [] :=
      mergeLoop_no_empty machine_ids ws 0 hs
    cases drain with
    | false => exact hinv
    | true =>
      intro w hw
      simp only [build_maintenance_schedule_payload, if_true, ite_true,
        List.mem_append, List.mem_singleton] at hw
      rcases hw with hw | rfl
      · exact hinv w hw
      · exact hreq

/-- C4 witness: the amended theorem applied at a concrete valid schedule and
request, specialised to the appended window of the result. -/
theorem c4_no_empty_windows_witness :
    (⟨[mB], ⟨100, 200⟩⟩ : Window).machine_ids ≠ [] := by
  have hmem : (⟨[mB], ⟨100, 200⟩⟩ : Window) ∈
      build_maintenance_schedule_payload (some [⟨[mA], ⟨1, 2⟩⟩]) [mB] 100 200 true := by
    have hev : build_maintenance_schedule_payload
        (some [⟨[mA], ⟨1, 2⟩⟩]) [mB] 100 200 true
        = [⟨[mA], ⟨1, 2⟩⟩, ⟨[mB], ⟨100, 200⟩⟩] := by
      simp [build_maintenance_schedule_payload, mergeLoop, stripLoop, mA, mB]
    rw [hev]
    simp
  exact c4_no_empty_windows_amended (some [⟨[mA], ⟨1, 2⟩⟩]) [mB] 100 200 true
    (by decide) (by decide) _ hmem

/-- C5 amended: a merge whose request machine set is empty strips nothing;
in undrain mode it returns the existing windows unchanged, while in drain
mode it still appends the request window, whose machine set is empty.  (The
original claim — a no-op in both modes — fails in drain mode, see the
counterexample.) -/
theorem c5_empty_request_merge (ws : List Window) (start duration : Int) :
    build_maintenance_schedule_payload (some ws) [] start duration false = ws ∧
    build_maintenance_schedule_payload (some ws) [] start duration true
      = ws ++ [⟨[], ⟨start, duration⟩⟩] ∧
    build_maintenance_schedule_payload none [] start duration false = [] ∧
    build_maintenance_schedule_payload none [] start duration true
      = [⟨[], ⟨start, duration⟩⟩] := by
  refine ⟨?_, ?_, rfl, rfl⟩ <;>
    simp [build_maintenance_schedule_payload, mergeLoop_nil_req]

/-- C7: draining `{b, c}` with start 100 and duration 200 into a schedule
whose one window covers `{a, b}` yields exactly two windows: `{a}` with the
original unavailability, then the appended `{b, c}` window with start 100
and duration 200.  (`a` must differ from both requested machines; `b` is
removed from the old window because it is the last element of its list, so
no iterator skip occurs here.) -/
theorem c7_drain_two_windows (a b c : MachineId) (u : Unavailability)
    (hab : a ≠ b) (hac : a ≠ c) :
    build_maintenance_schedule_payload (some [⟨[a, b], u⟩]) [b, c] 100 200 true
      = [⟨[a], u⟩, ⟨[b, c], ⟨100, 200⟩⟩] := by
  have hstrip : stripLoop [b, c] [a, b] 0 = [a] := by
    rw [stripLoop]
    simp [hab, hac]
    rw [stripLoop]
    simp [hab, List.erase_cons]
    rw [stripLoop]
    simp
  have hmerge : mergeLoop [b, c] [⟨[a, b], u⟩] 0 = [⟨[a], u⟩] := by
    rw [mergeLoop]
    simp [hstrip]
    rw [mergeLoop]
    simp
  simp [build_maintenance_schedule_payload, hmerge]

/-- C7 witness: the scenario theorem applied at three concrete distinct
machines and a concrete original unavailability. -/
theorem c7_drain_two_windows_witness :
    build_maintenance_schedule_payload (some [⟨[mA, mB], ⟨1, 2⟩⟩]) [mB, mC] 100 200 true
      = [⟨[mA], ⟨1, 2⟩⟩, ⟨[mB, mC], ⟨100, 200⟩⟩] :=
  c7_drain_two_windows mA mB mC ⟨1, 2⟩ (by decide) (by decide)

theorem splitOnPipe_ne_nil (l : List Char) : splitOnPipe l ≠ [] := by
  cases l with
  | nil => simp [splitOnPipe]
  | cons c rest =>
    by_cases hc : c = '|'
    · simp [splitOnPipe, hc]
    · simp only [splitOnPipe, hc, if_false, ite_false]
      cases h : splitOnPipe rest <;> simp

theorem splitOnPipe_no_pipe (ys : List Char) (h : '|' ∉ ys) :
    splitOnPipe ys = [ys] := by
  induction ys with
  | nil => rfl
  | cons c rest ih =>
    have hc : c ≠ '|' := fun he => h (he ▸ List.mem_cons_self c rest)
    have hrest : '|' ∉ rest := fun hr => h (List.mem_cons_of_mem c hr)
    simp [splitOnPipe, hc, ih hrest]

theorem splitOnPipe_append (xs ys : List Char) (h : '|' ∉ xs) :
    splitOnPipe (xs ++ '|' :: ys) = xs :: splitOnPipe ys := by
  induction xs with
  | nil => simp [splitOnPipe]
  | cons c rest ih =>
    have hc : c ≠ '|' := fun he => h (he ▸ List.mem_cons_self c rest)
    have hrest : '|' ∉ rest := fun hr => h (List.mem_cons_of_mem c hr)
    simp [splitOnPipe, hc, ih hrest]

theorem splitOnPipe_length (l : List Char) :
    (splitOnPipe l).length = l.count '|' + 1 := by
  induction l with
  | nil => rfl
  | cons c rest ih =>
    by_cases hc : c = '|'
    · subst hc
      simp [splitOnPipe, List.count_cons, ih]
    · cases h : splitOnPipe rest with
      | nil => exact absurd h (splitOnPipe_ne_nil rest)
      | cons hd tl =>
        rw [h] at ih
        simp only [splitOnPipe, hc, if_false, ite_false, h, List.length_cons,
          List.count_cons]
        simp only [List.length_cons] at ih
        have hne : (c == '|') = false := by simp [hc]
        simp [hne]
        omega

/-- C8: a host specifier built as `hostname ++ "|" ++ ip` (neither part
containing a pipe, so the specifier has exactly one) resolves to the
machine id whose fields are the two parts taken literally.  The resolver
value is the same for every `dns` collaborator — the quantification over
`dns` is the statement that no DNS lookup takes part in the result. -/
theorem c8_pipe_specifier_literal (dns : String → String) (host ip : String)
    (hh : '|' ∉ host.toList) (hi : '|' ∉ ip.toList) :
    get_machine_ids dns [host ++ "|" ++ ip] = some [⟨host, ip⟩] := by
  have hdata : (host ++ "|" ++ ip).toList = host.toList ++ '|' :: ip.toList := by
    simp [String.toList]
  have hmem : '|' ∈ (host ++ "|" ++ ip).toList := by
    rw [hdata]; simp
  have hsplit : splitOnPipe (host ++ "|" ++ ip).toList
      = [host.toList, ip.toList] := by
    rw [hdata, splitOnPipe_append _ _ hh, splitOnPipe_no_pipe _ hi]
  have hone : machineIdOfSpecifier dns (host ++ "|" ++ ip) = some ⟨host, ip⟩ := by
    unfold machineIdOfSpecifier
    rw [if_pos hmem, hsplit]
    rfl
  simp [get_machine_ids, hone]

/-- C8 witness: the theorem applied to the concrete specifier of the claim,
with a dns collaborator that never answers usefully. -/
theorem c8_pipe_specifier_witness :
    get_machine_ids (fun _ => "") ["host|1.2.3.4"]
      = some [⟨"host", "1.2.3.4"⟩] := by
  have h := c8_pipe_specifier_literal (fun _ => "") "host" "1.2.3.4"
    (by decide) (by decide)
  rwa [show ("host" ++ "|" ++ "1.2.3.4" : String) = "host|1.2.3.4" by rfl] at h

/-- C10: a specifier with two or more pipes enters the pipe branch, splits
into three or more parts, and the two-name destructuring fails
(`ValueError`, modeled as `none`), so `get_machine_ids` of any host list
containing such a specifier errors out. -/
theorem c10_multi_pipe_unpack_error (dns : String → String) (s : String)
    (hostnames : List String) (hs : s ∈ hostnames)
    (h2 : 2 ≤ s.toList.count '|') :
    get_machine_ids dns hostnames = none := by
  have hone : machineIdOfSpecifier dns s = none := by
    have hmem : '|' ∈ s.toList := by
      by_contra hnot
      rw [List.count_eq_zero.mpr hnot] at h2
      omega
    have hlen := splitOnPipe_length s.toList
    unfold machineIdOfSpecifier
    rw [if_pos hmem]
    rcases hsp : splitOnPipe s.toList with _ | ⟨p1, _ | ⟨p2, _ | ⟨p3, rest⟩⟩⟩
    · exact absurd hsp (splitOnPipe_ne_nil s.toList)
    · have h1 : (splitOnPipe s.toList).length = 1 := by rw [hsp]; rfl
      omega
    · have h1 : (splitOnPipe s.toList).length = 2 := by rw [hsp]; rfl
      omega
    · rfl
  induction hostnames with
  | nil => simp at hs
  | cons h t ih =>
    rcases List.mem_cons.mp hs with rfl | hst
    · simp [get_machine_ids, hone]
    · cases hm : machineIdOfSpecifier dns h <;>
        simp [get_machine_ids, hm, ih hst]

/-- C10 witness: the theorem applied to the concrete two-pipe specifier of
the claim. -/
theorem c10_multi_pipe_witness :
    get_machine_ids (fun _ => "") ["host|1.2.3.4|extra"] = none :=
  c10_multi_pipe_unpack_error (fun _ => "") "host|1.2.3.4|extra"
    ["host|1.2.3.4|extra"] (by decide) (by decide)

/-- C9 counterexample: the claim says unparseable duration text fails with
`InvalidDurationError` specifically.  In the code, `pytimeparse` returns
`None` on unparseable text and `timedelta_type` then evaluates
`None * 1000000000`, which raises a plain `TypeError`; no
`InvalidDurationError` exists anywhere in the source, so the raised error
is not it. -/
theorem c9_counterexample_type_error :
    timedelta_type (fun _ => none) (some "bogus") = Except.error PyExc.typeError ∧
    (Except.error PyExc.typeError : Except PyExc (Option Int)) ≠
      Except.error PyExc.invalidDurationError :=
  ⟨rfl, by simp⟩

/-- C9 amended: an absent (`None`) value yields the sentinel `None` result
rather than an error; unparseable duration text (the parser returns no
seconds value) makes `timedelta_type` fail with `TypeError` — from
multiplying `None` by `10^9` — not with a dedicated duration error; and
parseable text is converted exactly, seconds times `10^9`. -/
theorem c9_timedelta_sentinel_and_type_error (timeparse : String → Option Int) :
    timedelta_type timeparse none = Except.ok none ∧
    (∀ v, timeparse v = none →
      timedelta_type timeparse (some v) = Except.error PyExc.typeError) ∧
    (∀ v s, timeparse v = some s →
      timedelta_type timeparse (some v) = Except.ok (some (s * 1000000000))) := by
  refine ⟨rfl, ?_, ?_⟩
  · intro v hv
    simp [timedelta_type, hv]
  · intro v s hv
    simp [timedelta_type, hv, seconds_to_nanoseconds]

/-- C9 witness: the amended theorem applied to a parser that recognises
nothing, at the absent value and at a concrete unparseable text. -/
theorem c9_timedelta_witness :
    timedelta_type (fun _ => none) none = Except.ok none ∧
    timedelta_type (fun _ => none) (some "x") = Except.error PyExc.typeError :=
  ⟨(c9_timedelta_sentinel_and_type_error (fun _ => none)).1,
   (c9_timedelta_sentinel_and_type_error (fun _ => none)).2.1 "x" rfl⟩

end Paasta
